import Mathlib

/-!
# Verification of the consul-slack watcher core

Shallow embedding of the repository's Go code (src/consul/consul.go and the
unnamed variant src/unnamed/part_000; their `load`, `dump`, `Next`, `pos` and
`del` bodies are identical) together with theorems settling the frozen claims.

Modelling notes, matching the Go semantics precisely:

* `api.HealthCheck` is a record of strings; diffing compares `ServiceID` only.
* `api.HealthChecks` is a Go slice.  The passing loop of `Next` ranges over
  `c.cc` while `del` rewrites the same backing array in place:
  `range c.cc` copies the slice header once (fixed length, shared backing
  array), and `del`/`append(hcs[:i], hcs[i+1:]...)` shifts the elements
  `i+1 .. len-1` one slot to the left inside that shared array, leaving the
  trailing slot untouched and returning a slice one shorter.  We therefore
  model the passing loop on a pair (backing array, current length): the loop
  reads index `i` of the backing array (which may be a stale slot past the
  current length), while `pos`/`del` act on the current slice
  `arr.take len`.
* `json.Marshal` / `json.Unmarshal` are standard-library code outside this
  repository; they are modelled abstractly by a `Blob` that is either a
  well-formed encoding of a check list or corrupt bytes, per the stdlib
  contract (marshalling a checks slice never fails, unmarshalling its output
  returns the same value, unmarshalling corrupt bytes fails).
* Channels: `close` of an already-closed channel faults (Go run-time panic),
  a receive on a closed channel succeeds immediately.  Panics are modelled
  by the `PanicOr` result type.
* The `select` in `Next` is driven by an environment list of `StepInput`s:
  each entry says which branch fired at that tick boundary (`stop`, or a
  timer tick carrying the health-query answer and whether the subsequent
  KV put of the state key succeeds).
-/

namespace ConsulSlack

/-- `api.HealthCheck`: one monitored service instance.  Equality for diffing
is by `serviceID` only (`pos` compares just that field). -/
structure HealthCheck where
  node : String
  serviceID : String
  serviceName : String
  status : String
  notes : String
  output : String
deriving DecidableEq, Repr, Inhabited

/-- `api.HealthChecks`, a slice of checks. -/
abbrev HealthChecks := List HealthCheck

/-- Service identifiers of a check list, in order. -/
def ids (hcs : HealthChecks) : List String := hcs.map (·.serviceID)

/-- Helper for `pos`: Go's indexed loop, carrying the index of the head. -/
def posAux (hcs : HealthChecks) (hc : HealthCheck) (i : Nat) : Int :=
  match hcs with
  | [] => -1
  | c :: rest => if c.serviceID = hc.serviceID then Int.ofNat i else posAux rest hc (i + 1)

/-- `pos` (consul.go:272): first index of a check with the same `ServiceID`,
or `-1` when absent. -/
def pos (hcs : HealthChecks) (hc : HealthCheck) : Int := posAux hcs hc 0

/-- `del` (consul.go:282) as executed on a slice `arr.take len` that shares
the backing array `arr`: `append(hcs[:i], hcs[i+1:]...)` shifts the elements
after `i` one slot left inside the backing array (slots from `len - 1` on
keep their old contents) and the resulting slice is one shorter.  Returns
the new backing array and the new slice length. -/
def delArr (arr : HealthChecks) (len : Nat) (hc : HealthCheck) : HealthChecks × Nat :=
  let cur := arr.take len
  let i := pos cur hc
  if i = -1 then (arr, len)
  else (arr.take i.toNat ++ cur.drop (i.toNat + 1) ++ arr.drop (len - 1), len - 1)

/-- State of the passing loop of `Next`: backing array, current length of
`c.cc`, and the `pc` events accumulated so far. -/
structure PassState where
  arr : HealthChecks
  len : Nat
  pc : HealthChecks
deriving DecidableEq, Repr

/-- One iteration of the passing loop (consul.go:231-239) at range index `i`.
The range clause reads slot `i` of the original backing array (possibly a
stale slot beyond the current slice length); `pos` and `del` act on the
current slice `arr.take len`. -/
def passingStep (hc : HealthChecks) (s : PassState) (i : Nat) : PassState :=
  if pos hc (s.arr.getD i default) ≠ -1 then s
  else
    { arr := (delArr s.arr s.len (s.arr.getD i default)).1,
      len := (delArr s.arr s.len (s.arr.getD i default)).2,
      pc := s.pc ++ [s.arr.getD i default] }

/-- The passing loop: `for _, check := range c.cc` iterates the range indices
`0 .. prior.length - 1` of the slice header captured at loop entry. -/
def passingLoop (hc prior : HealthChecks) : PassState :=
  (List.range prior.length).foldl (passingStep hc) ⟨prior, prior.length, []⟩

/-- One iteration of the critical loop (consul.go:242-250): a live failing
check absent (by service id) from the working snapshot is emitted as newly
critical and appended to the snapshot. -/
def criticalStep (s : HealthChecks × HealthChecks) (check : HealthCheck) :
    HealthChecks × HealthChecks :=
  if pos s.2 check ≠ -1 then s
  else (s.1 ++ [check], s.2 ++ [check])

/-- The critical loop over the live failing set `hc`, starting from the
working snapshot `st`; returns (cc events, final snapshot). -/
def criticalLoop (hc st : HealthChecks) : HealthChecks × HealthChecks :=
  hc.foldl criticalStep ([], st)

/-- Result of one diff tick of `Next`. -/
structure TickResult where
  pc : HealthChecks
  cc : HealthChecks
  state : HealthChecks
deriving DecidableEq, Repr

/-- One diff tick of `Next` (consul.go:231-250): the passing loop over the
prior snapshot against the live failing set `hc`, then the critical loop
over `hc` against the already-updated working snapshot. -/
def tick (hc prior : HealthChecks) : TickResult :=
  let p := passingLoop hc prior
  let st1 := p.arr.take p.len
  let c := criticalLoop hc st1
  ⟨p.pc, c.1, c.2⟩

/-- Error taxonomy surfaced by the watcher (spec section 7). -/
inductive CErr
  | corruptState
  | coordUnavailable
deriving DecidableEq, Repr

/-- Contents of the state key in the KV store.  `json.Marshal` and
`json.Unmarshal` are standard-library code outside this repository and are
modelled abstractly: a blob is either the well-formed encoding of a check
list (what `json.Marshal` produces, and `json.Unmarshal` inverts) or
corrupt bytes (on which `json.Unmarshal` fails). -/
inductive Blob
  | enc (chs : HealthChecks)
  | corrupt
deriving DecidableEq, Repr

/-- `json.Unmarshal` into an `api.HealthChecks` value. -/
def unmarshal (b : Blob) : Except CErr HealthChecks :=
  match b with
  | .enc chs => .ok chs
  | .corrupt => .error .corruptState

/-- `load` (consul.go:173-186): read the state key.  A missing key (`kv ==
nil`) yields the empty check list with no error; a present key is
unmarshalled, surfacing any unmarshalling error. -/
def load (kv : Option Blob) : Except CErr HealthChecks :=
  match kv with
  | none => .ok []
  | some b => unmarshal b

/-- `dump` (consul.go:189-201): marshal the working snapshot and overwrite
the state key with it.  Returns the new contents of the state key. -/
def dump (chs : HealthChecks) : Blob := .enc chs

/-- One resolution of the `select` in `Next` at a tick boundary: either the
stop channel fired, or the timer fired and the health query returned
`health` (a live failing set or a transport error) with the subsequent
`dump` put succeeding iff `dumpOk`. -/
inductive StepInput
  | stop
  | tck (health : Except CErr HealthChecks) (dumpOk : Bool)
deriving Repr

/-- What a `Next` call returns, together with the watcher state it leaves
behind: the two event slices and error of Go's
`(cc, pc, err)`, the in-memory snapshot `c.cc` (`none` models a nil field),
and the contents of the state key. -/
structure NextRet where
  ccE : HealthChecks
  pcE : HealthChecks
  err : Option CErr
  mem : Option HealthChecks
  store : Option Blob
deriving DecidableEq, Repr

/-- Outcome of running `Next`'s loop against a finite environment:
it either returned, or consumed the whole environment while still looping. -/
inductive RunResult
  | pending (mem : HealthChecks) (store : Option Blob)
  | done (ret : NextRet)
deriving DecidableEq, Repr

/-- The `for`/`select` loop of `Next` (consul.go:219-263), driven by the
environment `env`.  `cc` is the in-memory snapshot `c.cc`, `store` the
state key.  On `stop` it returns nil events and nil error; on a timer tick
it runs the diff, dumps the updated snapshot (returning the dump error with
this tick's events if the put fails), returns if the tick produced events,
and otherwise rearms the timer and loops. -/
def nextLoop (cc : HealthChecks) (store : Option Blob) : List StepInput → RunResult
  | [] => .pending cc store
  | .stop :: _ => .done ⟨[], [], none, some cc, store⟩
  | .tck h d :: rest =>
    match h with
    | .error e => .done ⟨[], [], some e, some cc, store⟩
    | .ok hc =>
      let t := tick hc cc
      if d then
        if t.cc.length > 0 ∨ t.pc.length > 0 then
          .done ⟨t.cc, t.pc, none, some t.state, some (dump t.state)⟩
        else nextLoop t.state (some (dump t.state)) rest
      else .done ⟨t.cc, t.pc, some .coordUnavailable, some t.state, store⟩

/-- A full `Next` call (consul.go:204-264): when the in-memory snapshot is
nil it is first loaded from the state key, and a load error is returned
immediately with no events; then the loop runs. -/
def nextCall (mem : Option HealthChecks) (store : Option Blob)
    (env : List StepInput) : RunResult :=
  match mem with
  | some cc => nextLoop cc store env
  | none =>
    match load store with
    | .error e => .done ⟨[], [], some e, none, store⟩
    | .ok cc => nextLoop cc store env

/-- Result of an operation that can hit a Go run-time panic. -/
inductive PanicOr (α : Type)
  | panicked (msg : String)
  | ok (a : α)
deriving DecidableEq, Repr

/-- State of the `lockCh` field of the part_000 `Consul`: `none` is the nil
channel (no successful `Lock` yet), `some closed` a channel created by
`Lock`, with `closed` true once `Unlock` has closed it. -/
abbrev LockCh := Option Bool

/-- `Unlock` (part_000:132-141): panics "not locked" when `lockCh` is nil,
otherwise closes the channel (a second close faults) and issues the KV
release, whose error `releaseErr` it returns along with the new channel
state. -/
def Unlock (lockCh : LockCh) (releaseErr : Option CErr) :
    PanicOr (LockCh × Option CErr) :=
  match lockCh with
  | none => .panicked "not locked"
  | some closed =>
    if closed then .panicked "close of closed channel"
    else .ok (some true, releaseErr)

/-- `Close` (part_000:82-85): `close(c.stopCh); return nil`.  The argument
is whether `stopCh` has already been closed; Go faults on closing a closed
channel, otherwise the channel is now closed and `Close` returns nil. -/
def Close (stopClosed : Bool) : PanicOr Bool :=
  if stopClosed then .panicked "close of closed channel"
  else .ok true

/-- A concrete check used to evaluate the model at specific inputs. -/
def chk1 : HealthCheck := ⟨"node1", "1", "svc1", "critical", "", ""⟩

/-- A concrete check used to evaluate the model at specific inputs. -/
def chk2 : HealthCheck := ⟨"node2", "2", "svc2", "critical", "", ""⟩

/-- A concrete check used to evaluate the model at specific inputs. -/
def chk3 : HealthCheck := ⟨"node3", "3", "svc3", "critical", "", ""⟩

/-! ## Helper lemmas about `pos`, `delArr` and the two loops -/

/-- `posAux` returns `-1` exactly when no element matches by service id. -/
theorem posAux_eq_neg_one_iff (hcs : HealthChecks) (hc : HealthCheck) :
    ∀ i, (posAux hcs hc i = -1 ↔ hc.serviceID ∉ ids hcs) := by
  induction hcs with
  | nil => intro i; simp [posAux, ids]
  | cons c rest ih =>
    intro i
    by_cases h : c.serviceID = hc.serviceID
    · simp only [posAux, if_pos h, ids, List.map_cons, List.mem_cons]
      constructor
      · intro habs
        have hnn : (0 : Int) ≤ Int.ofNat i := Int.ofNat_nonneg i
        omega
      · intro habs; exact absurd (Or.inl h.symm) habs
    · simp only [posAux, if_neg h, ids, List.map_cons, List.mem_cons]
      rw [ih (i + 1)]
      simp only [ids]
      constructor
      · intro hnm habs
        rcases habs with h1 | h1
        · exact h h1.symm
        · exact hnm h1
      · intro hnm h1; exact hnm (Or.inr h1)

/-- `pos` returns `-1` exactly when no element matches by service id. -/
theorem pos_eq_neg_one_iff (hcs : HealthChecks) (hc : HealthCheck) :
    pos hcs hc = -1 ↔ hc.serviceID ∉ ids hcs :=
  posAux_eq_neg_one_iff hcs hc 0

/-- When `posAux` finds a match, its value (as an index) is below the bound
`i + hcs.length`. -/
theorem posAux_toNat_lt (hcs : HealthChecks) (hc : HealthCheck) :
    ∀ i, posAux hcs hc i ≠ -1 → (posAux hcs hc i).toNat < i + hcs.length := by
  induction hcs with
  | nil => intro i h; exact absurd rfl h
  | cons c rest ih =>
    intro i h
    by_cases hm : c.serviceID = hc.serviceID
    · simp only [posAux, if_pos hm] at h ⊢
      simp [List.length_cons]
    · simp only [posAux, if_neg hm] at h ⊢
      have := ih (i + 1) h
      simp only [List.length_cons]
      omega

/-- When `pos` finds a match, its value is a valid index. -/
theorem pos_toNat_lt (hcs : HealthChecks) (hc : HealthCheck)
    (h : pos hcs hc ≠ -1) : (pos hcs hc).toNat < hcs.length := by
  have := posAux_toNat_lt hcs hc 0 h
  simpa using this

/-- The slice left by `delArr` is the old slice, or the old slice with one
index erased; in either case it is a sublist of the old slice, and the new
length is within the new backing array. -/
theorem delArr_spec (arr : HealthChecks) (len : Nat) (hc : HealthCheck)
    (h : len ≤ arr.length) :
    List.Sublist ((delArr arr len hc).1.take (delArr arr len hc).2) (arr.take len) ∧
    (delArr arr len hc).2 ≤ (delArr arr len hc).1.length := by
  by_cases hp : pos (arr.take len) hc = -1
  · simp [delArr, hp, h]
  · have hj : (pos (arr.take len) hc).toNat < (arr.take len).length :=
      pos_toNat_lt _ _ hp
    have hcl : (arr.take len).length = len := by
      simp [List.length_take]; omega
    rw [hcl] at hj
    simp only [delArr, if_neg hp]
    set j := (pos (arr.take len) hc).toNat with hjdef
    have htt : arr.take j = (arr.take len).take j := by
      rw [List.take_take]
      congr 1
      omega
    have hlen2 : (arr.take j ++ (arr.take len).drop (j + 1)).length = len - 1 := by
      simp [List.length_take, List.length_drop]
      omega
    have htake : (arr.take j ++ (arr.take len).drop (j + 1) ++ arr.drop (len - 1)).take (len - 1) =
        arr.take j ++ (arr.take len).drop (j + 1) := by
      rw [← hlen2, List.take_left]
    constructor
    · rw [htake, htt, ← List.eraseIdx_eq_take_drop_succ]
      exact List.eraseIdx_sublist _ j
    · simp only [List.length_append]
      have := List.length_append (arr.take j) ((arr.take len).drop (j + 1))
      omega

/-- Invariant of the passing loop, for any sequence of range indices: the
current slice stays within the backing array and a sublist of the original
snapshot, and every emitted passing check is absent (by id) from the live
failing set. -/
theorem passing_foldl_inv (hc prior : HealthChecks) (l : List Nat) :
    ∀ s : PassState, s.len ≤ s.arr.length →
      List.Sublist (s.arr.take s.len) prior →
      (∀ x ∈ s.pc, x.serviceID ∉ ids hc) →
      (l.foldl (passingStep hc) s).len ≤ (l.foldl (passingStep hc) s).arr.length ∧
      List.Sublist ((l.foldl (passingStep hc) s).arr.take (l.foldl (passingStep hc) s).len) prior ∧
      (∀ x ∈ (l.foldl (passingStep hc) s).pc, x.serviceID ∉ ids hc) := by
  induction l with
  | nil => intro s h1 h2 h3; exact ⟨h1, h2, h3⟩
  | cons i rest ih =>
    intro s h1 h2 h3
    simp only [List.foldl_cons]
    by_cases hcond : pos hc (s.arr.getD i default) ≠ -1
    · have hstep : passingStep hc s i = s := by
        unfold passingStep
        rw [if_pos hcond]
      rw [hstep]
      exact ih s h1 h2 h3
    · push_neg at hcond
      have hstep : passingStep hc s i =
          ⟨(delArr s.arr s.len (s.arr.getD i default)).1,
           (delArr s.arr s.len (s.arr.getD i default)).2,
           s.pc ++ [s.arr.getD i default]⟩ := by
        unfold passingStep
        rw [if_neg (fun hh => hh hcond)]
      rw [hstep]
      have hd := delArr_spec s.arr s.len (s.arr.getD i default) h1
      refine ih _ hd.2 (hd.1.trans h2) ?_
      intro x hx
      rcases List.mem_append.mp hx with hx1 | hx1
      · exact h3 x hx1
      · rcases List.mem_singleton.mp hx1 with rfl
        exact (pos_eq_neg_one_iff hc _).mp hcond

/-- The critical loop preserves uniqueness of service ids of the working
snapshot: a check is appended only when its id is absent. -/
theorem critical_foldl_nodup (l : List HealthCheck) :
    ∀ acc : HealthChecks × HealthChecks, (ids acc.2).Nodup →
      (ids (l.foldl criticalStep acc).2).Nodup := by
  induction l with
  | nil => intro acc h; exact h
  | cons c rest ih =>
    intro acc h
    simp only [List.foldl_cons]
    by_cases hcond : pos acc.2 c ≠ -1
    · have hstep : criticalStep acc c = acc := by simp [criticalStep, hcond]
      rw [hstep]; exact ih acc h
    · push_neg at hcond
      have hmem : c.serviceID ∉ ids acc.2 := (pos_eq_neg_one_iff acc.2 c).mp hcond
      have hstep : criticalStep acc c = (acc.1 ++ [c], acc.2 ++ [c]) := by
        simp [criticalStep, hcond]
      rw [hstep]
      apply ih
      simp only [ids, List.map_append, List.map_cons, List.map_nil]
      rw [List.nodup_append]
      refine ⟨h, List.nodup_singleton _, ?_⟩
      intro a ha hb
      rcases List.mem_singleton.mp hb with rfl
      exact hmem ha

/-- Every service id emitted by the critical loop comes from the initial
accumulator or from the list being folded over. -/
theorem critical_foldl_cc_mem (l : List HealthCheck) :
    ∀ (acc : HealthChecks × HealthChecks) (x : String),
      x ∈ ids (l.foldl criticalStep acc).1 → x ∈ ids acc.1 ∨ x ∈ ids l := by
  induction l with
  | nil => intro acc x h; exact Or.inl h
  | cons c rest ih =>
    intro acc x h
    simp only [List.foldl_cons] at h
    by_cases hcond : pos acc.2 c ≠ -1
    · have hstep : criticalStep acc c = acc := by simp [criticalStep, hcond]
      rw [hstep] at h
      rcases ih acc x h with h1 | h1
      · exact Or.inl h1
      · right; simp only [ids, List.map_cons, List.mem_cons]; exact Or.inr h1
    · push_neg at hcond
      have hstep : criticalStep acc c = (acc.1 ++ [c], acc.2 ++ [c]) := by
        simp [criticalStep, hcond]
      rw [hstep] at h
      rcases ih _ x h with h1 | h1
      · simp only [ids, List.map_append, List.map_cons, List.map_nil,
          List.mem_append, List.mem_cons] at h1
        rcases h1 with h2 | h2
        · exact Or.inl h2
        · right
          simp only [ids, List.map_cons, List.mem_cons]
          rcases h2 with h3 | h3
          · exact Or.inl h3
          · exact absurd h3 (List.not_mem_nil x)
      · right; simp only [ids, List.map_cons, List.mem_cons]; exact Or.inr h1

/-- Service ids of newly-passing events of a tick are absent from the live
failing set. -/
theorem tick_pc_ids_not_in_hc (hc prior : HealthChecks) :
    ∀ x ∈ ids (tick hc prior).pc, x ∉ ids hc := by
  intro x hx
  have hinv := passing_foldl_inv hc prior (List.range prior.length)
    ⟨prior, prior.length, []⟩ (le_refl _) (by rw [List.take_length]) (by intro x hx; cases hx)
  rcases List.mem_map.mp hx with ⟨c, hc1, rfl⟩
  exact hinv.2.2 c hc1

/-- Service ids of newly-critical events of a tick occur in the live
failing set. -/
theorem tick_cc_ids_in_hc (hc prior : HealthChecks) :
    ∀ x ∈ ids (tick hc prior).cc, x ∈ ids hc := by
  intro x hx
  have := critical_foldl_cc_mem hc
    ([], (passingLoop hc prior).arr.take (passingLoop hc prior).len) x
  simp only [tick, criticalLoop] at hx
  rcases this hx with h1 | h1
  · exact absurd h1 (by simp [ids])
  · exact h1

/-! ## Claim theorems -/

/-- C1: the claim says one diff tick starting from prior snapshot A against
live failing set B (distinct ids each) always leaves a snapshot whose id set
equals that of B.  The code violates this: ranging over `c.cc` while `del`
shifts the shared backing array makes the passing loop read stale slots, so
with A = [chk1, chk2, chk3] and B = [] the final snapshot is [chk2], whose
id set is nonempty, while B's id set is empty. -/
theorem c1_tick_snapshot_diverges :
    (tick [] [chk1, chk2, chk3]).state = [chk2] ∧
    ids (tick [] [chk1, chk2, chk3]).state ≠ ids ([] : HealthChecks) := by
  constructor
  · rfl
  · decide

/-- C2: whenever `Next`'s loop returns a batch with no error and a non-empty
event list, the state key already holds the dump of the returned in-memory
snapshot (persistence happens before the return); and a tick whose diff
produces no events (with the dump put succeeding) does not return: the loop
continues with the rest of the environment. -/
theorem c2_nonempty_return_persisted :
    (∀ (env : List StepInput) (cc : HealthChecks) (st : Option Blob) (ret : NextRet),
        nextLoop cc st env = .done ret → ret.err = none →
        (ret.ccE ≠ [] ∨ ret.pcE ≠ []) →
        ∃ m, ret.mem = some m ∧ ret.store = some (dump m)) ∧
    (∀ (cc : HealthChecks) (st : Option Blob) (hc : HealthChecks) (rest : List StepInput),
        (tick hc cc).cc = [] → (tick hc cc).pc = [] →
        nextLoop cc st (.tck (.ok hc) true :: rest) =
          nextLoop (tick hc cc).state (some (dump (tick hc cc).state)) rest) := by
  constructor
  · intro env
    induction env with
    | nil =>
      intro cc st ret h
      exact absurd h (by simp [nextLoop])
    | cons e rest ih =>
      intro cc st ret h herr hne
      cases e with
      | stop =>
        simp only [nextLoop, RunResult.done.injEq] at h
        rw [← h] at hne
        simp at hne
      | tck hq d =>
        cases hq with
        | error e2 =>
          simp only [nextLoop, RunResult.done.injEq] at h
          rw [← h] at herr
          simp at herr
        | ok hcv =>
          simp only [nextLoop] at h
          by_cases hd : d = true
          · rw [hd] at h
            simp only [if_true] at h
            by_cases hev : (tick hcv cc).cc.length > 0 ∨ (tick hcv cc).pc.length > 0
            · rw [if_pos hev] at h
              simp only [RunResult.done.injEq] at h
              refine ⟨(tick hcv cc).state, ?_, ?_⟩ <;> rw [← h]
            · rw [if_neg hev] at h
              exact ih _ _ _ h herr hne
          · have hd2 : d = false := by
              cases d
              · rfl
              · exact absurd rfl hd
            rw [hd2] at h
            simp only [Bool.false_eq_true, if_false, RunResult.done.injEq] at h
            rw [← h] at herr
            simp at herr
  · intro cc st hc rest h1 h2
    simp only [nextLoop]
    simp [h1, h2]

/-- Witness for C2 at concrete inputs: a run that returns the non-empty
batch [chk1] has the dump of the returned snapshot in the store, and a run
whose first tick diffs empty-against-empty continues past that tick. -/
theorem c2_nonempty_return_persisted_witness :
    (∃ m, (⟨[chk1], [], none, some [chk1], some (dump [chk1])⟩ : NextRet).mem = some m ∧
        (⟨[chk1], [], none, some [chk1], some (dump [chk1])⟩ : NextRet).store = some (dump m)) ∧
    nextLoop [] none [.tck (.ok []) true] =
      nextLoop (tick [] []).state (some (dump (tick [] []).state)) [] :=
  ⟨c2_nonempty_return_persisted.1 [.tck (.ok [chk1]) true] [] none
      ⟨[chk1], [], none, some [chk1], some (dump [chk1])⟩ (by decide) rfl (Or.inl (by decide)),
    c2_nonempty_return_persisted.2 [] none [] [] rfl rfl⟩

/-- C3: no service identifier occurs both in the newly-passing and in the
newly-critical outputs of the same tick: every emitted passing check fails
the `pos` membership test against the live set, while every emitted critical
check is an element of the live set. -/
theorem c3_pass_crit_disjoint (hc prior : HealthChecks) (x : String)
    (h : x ∈ ids (tick hc prior).pc) : x ∉ ids (tick hc prior).cc := by
  intro hx
  exact tick_pc_ids_not_in_hc hc prior x h (tick_cc_ids_in_hc hc prior x hx)

/-- Witness for C3: with live set [chk1] and prior snapshot [chk2], id "2"
is emitted passing and is not among the critical ids. -/
theorem c3_pass_crit_disjoint_witness :
    "2" ∈ ids (tick [chk1] [chk2]).pc ∧ "2" ∉ ids (tick [chk1] [chk2]).cc :=
  ⟨by decide, c3_pass_crit_disjoint [chk1] [chk2] "2" (by decide)⟩

/-- C4: the claim says within-group emission order follows the iteration
order of the respective input (prior snapshot for passing events).  The
code violates this: with prior [chk1, chk2, chk3] and empty live set every
prior check should be emitted passing in snapshot order ["1", "2", "3"],
but the stale-slot reads of the passing loop emit ["1", "3", "3"] — chk3
twice and chk2 never. -/
theorem c4_pc_order_diverges :
    ids (tick [] [chk1, chk2, chk3]).pc = ["1", "3", "3"] ∧
    ids (tick [] [chk1, chk2, chk3]).pc ≠ ids [chk1, chk2, chk3] := by
  constructor
  · rfl
  · decide

/-- C5: `load` of a missing state key yields the empty check set with no
error; `load` of a present but non-deserializable value fails with the
corrupt-state error; and a `Next` call whose initial load fails returns
that error with no transition events (and no state change). -/
theorem c5_load_contract :
    load none = Except.ok ([] : HealthChecks) ∧
    load (some Blob.corrupt) = Except.error CErr.corruptState ∧
    ∀ env : List StepInput,
      nextCall none (some Blob.corrupt) env =
        .done ⟨[], [], some CErr.corruptState, none, some Blob.corrupt⟩ :=
  ⟨rfl, rfl, fun _ => rfl⟩

/-- C6: for every check set S (including the empty one), `load` after
`dump S` succeeds with a check set equal to S by service-identifier
membership (here the loaded value is S itself). -/
theorem c6_dump_load_roundtrip (S : HealthChecks) :
    ∃ S2, load (some (dump S)) = Except.ok S2 ∧ ∀ x : String, (x ∈ ids S2 ↔ x ∈ ids S) :=
  ⟨S, rfl, fun _ => Iff.rfl⟩

/-- C7: calling `Unlock` when the lock was never acquired (`lockCh` nil)
fails fast with the "not locked" panic and never completes as a successful
no-op, whatever the KV release would have answered. -/
theorem c7_unlock_not_locked_fails_fast (relErr : Option CErr) :
    Unlock none relErr = .panicked "not locked" ∧
    ∀ r, Unlock none relErr ≠ PanicOr.ok r := by
  refine ⟨rfl, ?_⟩
  intro r h
  simp [Unlock] at h

/-- Witness for C7 at a concrete release answer. -/
theorem c7_unlock_not_locked_fails_fast_witness :
    Unlock none none = .panicked "not locked" ∧
    Unlock none none ≠ PanicOr.ok (some true, none) :=
  ⟨(c7_unlock_not_locked_fails_fast none).1,
    (c7_unlock_not_locked_fails_fast none).2 (some true, none)⟩

/-- C8 counterexample: the claim says a second stop request after a
completed first one is a no-op with no failure; but `Close` runs
`close(c.stopCh)` unconditionally, and closing the already-closed stop
channel faults, so the second `Close` is a run-time panic, not a no-op. -/
theorem c8_second_close_panics :
    Close false = PanicOr.ok true ∧
    Close true = PanicOr.panicked "close of closed channel" :=
  ⟨rfl, rfl⟩

/-- C8 amended: a first stop request succeeds and closes the stop channel;
a second stop request is not a no-op — it faults with the
close-of-closed-channel panic, so stop is single-use; and once the watcher
loop observes the stop signal it returns immediately with no events, no
error, and performs no further ticks. -/
theorem c8_close_single_use :
    Close false = PanicOr.ok true ∧
    Close true = PanicOr.panicked "close of closed channel" ∧
    ∀ (cc : HealthChecks) (st : Option Blob) (env : List StepInput),
      nextLoop cc st (.stop :: env) = .done ⟨[], [], none, some cc, st⟩ :=
  ⟨rfl, rfl, fun _ _ _ => rfl⟩

/-- C9: when the stop signal fires at a tick boundary, `Next` returns with
empty newly-critical and newly-passing lists and a nil error, regardless of
state, store, or remaining environment. -/
theorem c9_stop_returns_empty_nil (cc : HealthChecks) (st : Option Blob)
    (env : List StepInput) :
    nextLoop cc st (.stop :: env) = .done ⟨[], [], none, some cc, st⟩ := rfl

/-- C10: one diff tick preserves the uniqueness invariant of the snapshot:
if the prior snapshot and the live failing set have pairwise-distinct
service ids, the updated snapshot has pairwise-distinct service ids. -/
theorem c10_tick_preserves_nodup (hc prior : HealthChecks)
    (h1 : (ids prior).Nodup) (_h2 : (ids hc).Nodup) :
    (ids (tick hc prior).state).Nodup := by
  have hinv := passing_foldl_inv hc prior (List.range prior.length)
    ⟨prior, prior.length, []⟩ (le_refl _) (by rw [List.take_length])
    (by intro x hx; cases hx)
  have hsub : List.Sublist
      (ids ((passingLoop hc prior).arr.take (passingLoop hc prior).len)) (ids prior) :=
    List.Sublist.map _ hinv.2.1
  have hnd : (ids ((passingLoop hc prior).arr.take (passingLoop hc prior).len)).Nodup :=
    h1.sublist hsub
  exact critical_foldl_nodup hc
    ([], (passingLoop hc prior).arr.take (passingLoop hc prior).len) hnd

/-- Witness for C10 at concrete inputs with distinct ids. -/
theorem c10_tick_preserves_nodup_witness :
    ((ids [chk2]).Nodup ∧ (ids [chk1]).Nodup) ∧
    (ids (tick [chk1] [chk2]).state).Nodup :=
  ⟨⟨by decide, by decide⟩, c10_tick_preserves_nodup [chk1] [chk2] (by decide) (by decide)⟩

end ConsulSlack
